import Mathlib

/-!
Verification of the scoring/ranking core and options handling of the
search-bookmarks-history-and-tabs browser extension.

The options model (`defaultOptions`, `setUserOptions`, `getUserOptions`,
`getEffectiveOptions`) is embedded from `src/popup/js/model/options.js`.
The browser storage backend (chrome.storage.sync / localStorage) is an
external collaborator and is modelled as an explicit `Option JValue`
state holding the stored `userOptions` value.

The scoring, matching and aggregation pipeline is not part of the given
source tree (only its callers are), so it is modelled from the
specification, section by section; every such definition carries a
`Modelled from the spec:` doc comment.
-/

/-- A JSON value, as produced by `JSON.parse` / stored in extension
storage. Numbers are modelled as exact rationals. -/
inductive JValue where
  | null : JValue
  | bool (b : Bool) : JValue
  | num (q : ℚ) : JValue
  | str (s : String) : JValue
  | arr (xs : List JValue) : JValue
  | obj (kvs : List (String × JValue)) : JValue
deriving Repr

/-- Look up a key in a JSON object member list (first occurrence wins). -/
def lookupObj (l : List (String × JValue)) (k : String) : Option JValue :=
  (l.find? (fun kv => kv.1 == k)).map Prod.snd

/-- Look up a key on a JSON value: `none` unless it is an object holding
the key. -/
def lookup : JValue → String → Option JValue
  | JValue.obj kvs, k => lookupObj kvs k
  | _, _ => none

/-- Two-level lookup `v[k1][k2]`. -/
def lookup2 (v : JValue) (k1 k2 : String) : Option JValue :=
  (lookup v k1).bind (fun w => lookup w k2)

/-- The `score` section of the default options of
`src/popup/js/model/options.js`. -/
def defaultOptionsScoreKvs : List (String × JValue) :=
  [ ("minScore", JValue.num 30)
  , ("minSearchTermMatchRatio", JValue.num 0.6)
  , ("bookmarkBaseScore", JValue.num 100)
  , ("tabBaseScore", JValue.num 90)
  , ("historyBaseScore", JValue.num 50)
  , ("searchEngineBaseScore", JValue.num 30)
  , ("titleWeight", JValue.num 1)
  , ("tagWeight", JValue.num 0.7)
  , ("urlWeight", JValue.num 0.6)
  , ("folderWeight", JValue.num 0.5)
  , ("exactIncludesBonus", JValue.num 5)
  , ("exactStartsWithBonus", JValue.num 10)
  , ("exactEqualsBonus", JValue.num 10)
  , ("exactTagMatchBonus", JValue.num 10)
  , ("exactFolderMatchBonus", JValue.num 5)
  , ("visitedBonusScore", JValue.num 2)
  , ("visitedBonusScoreMaximum", JValue.num 30)
  ]

/-- The members of the default options object of
`src/popup/js/model/options.js` (`defaultOptions`), transcribed as JSON
values. -/
def defaultOptionsKvs : List (String × JValue) :=
    [ ("general", JValue.obj
        [ ("tags", JValue.bool true)
        , ("highlight", JValue.bool true)
        , ("lastVisit", JValue.bool true)
        , ("visitCounter", JValue.bool false)
        , ("score", JValue.bool true)
        ])
    , ("search", JValue.obj
        [ ("approach", JValue.str "fuzzy")
        , ("maxResults", JValue.num 50)
        , ("minMatchCharLength", JValue.num 2)
        , ("fuzzyness", JValue.num 0.4)
        ])
    , ("tabs", JValue.obj [ ("enabled", JValue.bool true) ])
    , ("bookmarks", JValue.obj [ ("enabled", JValue.bool true) ])
    , ("history", JValue.obj
        [ ("enabled", JValue.bool true)
        , ("daysAgo", JValue.num 3)
        , ("maxItems", JValue.num 512)
        ])
    , ("searchEngines", JValue.obj
        [ ("enabled", JValue.bool true)
        , ("choices", JValue.arr
            [ JValue.obj
                [ ("name", JValue.str "Google")
                , ("urlPrefix", JValue.str "https://www.google.com/search?q=")
                ]
            , JValue.obj
                [ ("name", JValue.str "Bing")
                , ("urlPrefix", JValue.str "https://www.bing.com/search?q=")
                ]
            , JValue.obj
                [ ("name", JValue.str "DuckDuckGo")
                , ("urlPrefix", JValue.str "https://duckduckgo.com/?q=")
                ]
            , JValue.obj
                [ ("name", JValue.str "dict.cc")
                , ("urlPrefix", JValue.str "https://www.dict.cc/?s=")
                ]
            ])
        ])
    , ("score", JValue.obj defaultOptionsScoreKvs)
    ]

/-- The default options value itself. -/
def defaultOptions : JValue :=
  JValue.obj defaultOptionsKvs

mutual

/-- Modelled from the spec: the helper `mergeDeep` of
`popup/js/helper/utils.js` is not in the given source tree; the spec
says user overrides are deep-merged over defaults field-by-field:
missing keys fall back to defaults, present keys fully replace, except
nested objects which merge recursively. On non-object inputs the
override value wins. -/
def mergeDeep : JValue → JValue → JValue
  | JValue.obj d, JValue.obj o =>
      JValue.obj
        (mergeLeft d o
          ++ o.filter (fun kv => (d.find? (fun kv2 => kv2.1 == kv.1)).isNone))
  | _, v => v

/-- Modelled from the spec: the members of the default object, each
overridden by (or recursively merged with) the override's member of the
same key when present. -/
def mergeLeft : List (String × JValue) → List (String × JValue) → List (String × JValue)
  | [], _ => []
  | (k, v) :: d, o =>
      (k, match o.find? (fun kv => kv.1 == k) with
          | some kw => mergeDeep v kw.2
          | none => v) :: mergeLeft d o

end

/-- JavaScript truthiness of a JSON value, used by
`result.userOptions || {}` in `getUserOptions`. -/
def truthy : JValue → Bool
  | JValue.null => false
  | JValue.bool b => b
  | JValue.num q => q != 0
  | JValue.str s => s != ""
  | JValue.arr _ => true
  | JValue.obj _ => true

/-- `setUserOptions` of `options.js`: writes the user options value into
the storage slot (the chrome sync storage, modelled as `Option JValue`). -/
def setUserOptions (userOptions : JValue) (_store : Option JValue) : Option JValue :=
  some userOptions

/-- `getUserOptions` of `options.js`: reads the stored user options;
when nothing is stored (or a falsy value is), `result.userOptions || {}`
yields the empty object. -/
def getUserOptions (store : Option JValue) : JValue :=
  match store with
  | none => JValue.obj []
  | some v => if truthy v then v else JValue.obj []

/-- `getEffectiveOptions` of `options.js`: the stored user options
deep-merged over the hardcoded defaults. -/
def getEffectiveOptions (store : Option JValue) : JValue :=
  mergeDeep defaultOptions (getUserOptions store)

/-- Whether a JSON value is an object. -/
def isObj : JValue → Bool
  | JValue.obj _ => true
  | _ => false

/-- The user override of the spec's round-trip property: an object
whose only member sets score.minScore to 10. -/
def userOverrideMinScore10 : JValue :=
  JValue.obj [("score", JValue.obj [("minScore", JValue.num 10)])]

/-- Modelled from the spec: the result types of §3 (the search code
itself is not in the given source tree). -/
inductive ResultType where
  | bookmark : ResultType
  | tab : ResultType
  | history : ResultType
  | searchEngine : ResultType
deriving DecidableEq, Repr

/-- Modelled from the spec: `SearchableEntity` of §3 — the uniform
searchable shape produced by the Entity Normalizer. -/
structure SearchableEntity where
  id : Nat
  etype : ResultType
  title : String
  url : String
  folderPath : List String
  tags : List String
  visitCount : Nat
deriving DecidableEq, Repr

/-- Modelled from the spec: `QueryTerms` of §3 — the tokenized query. -/
structure QueryTerms where
  rawQuery : String
  terms : List String
  tagTerms : List String
  folderTerms : List String
deriving DecidableEq, Repr

/-- Modelled from the spec: the matchable fields of §3. -/
inductive MatchField where
  | title : MatchField
  | url : MatchField
  | tag : MatchField
  | folder : MatchField
deriving DecidableEq, Repr

/-- Modelled from the spec: `FieldMatch` of §3, restricted to the data
the Scorer consumes (which field matched which term). -/
structure FieldMatch where
  field : MatchField
  term : String
deriving DecidableEq, Repr

/-- Modelled from the spec: the `ScoringConfig` weights/bonuses table of
§4.4/§6, together with the `search.maxResults` cap the aggregator uses.
Values are exact rationals. -/
structure ScoringConfig where
  minScore : ℚ
  minSearchTermMatchRatio : ℚ
  bookmarkBaseScore : ℚ
  tabBaseScore : ℚ
  historyBaseScore : ℚ
  searchEngineBaseScore : ℚ
  titleWeight : ℚ
  tagWeight : ℚ
  urlWeight : ℚ
  folderWeight : ℚ
  exactIncludesBonus : ℚ
  exactStartsWithBonus : ℚ
  exactEqualsBonus : ℚ
  exactTagMatchBonus : ℚ
  exactFolderMatchBonus : ℚ
  visitedBonusScore : ℚ
  visitedBonusScoreMaximum : ℚ
  maxResults : Nat
deriving DecidableEq, Repr

/-- The default scoring configuration, with the values of
`defaultOptions.score` (and `defaultOptions.search.maxResults`) of
`src/popup/js/model/options.js`. -/
def defaultScoreConfig : ScoringConfig :=
  { minScore := 30
  , minSearchTermMatchRatio := 0.6
  , bookmarkBaseScore := 100
  , tabBaseScore := 90
  , historyBaseScore := 50
  , searchEngineBaseScore := 30
  , titleWeight := 1
  , tagWeight := 0.7
  , urlWeight := 0.6
  , folderWeight := 0.5
  , exactIncludesBonus := 5
  , exactStartsWithBonus := 10
  , exactEqualsBonus := 10
  , exactTagMatchBonus := 10
  , exactFolderMatchBonus := 5
  , visitedBonusScore := 2
  , visitedBonusScoreMaximum := 30
  , maxResults := 50
  }

/-- Substring containment on strings (JavaScript `String.includes`),
via infix containment of the character lists: the needle is a prefix of
some tail of the haystack. -/
def containsStr (hay needle : String) : Bool :=
  hay.data.tails.any (fun t => needle.data.isPrefixOf t)

/-- Prefix test on strings (JavaScript `String.startsWith`), via prefix
containment of the character lists. -/
def startsWithStr (hay needle : String) : Bool :=
  needle.data.isPrefixOf hay.data

/-- Modelled from the spec: base score by result type (§4.4). -/
def baseScore (cfg : ScoringConfig) : ResultType → ℚ
  | ResultType.bookmark => cfg.bookmarkBaseScore
  | ResultType.tab => cfg.tabBaseScore
  | ResultType.history => cfg.historyBaseScore
  | ResultType.searchEngine => cfg.searchEngineBaseScore

/-- Modelled from the spec: field weight by matched field (§4.4). -/
def fieldWeight (cfg : ScoringConfig) : MatchField → ℚ
  | MatchField.title => cfg.titleWeight
  | MatchField.url => cfg.urlWeight
  | MatchField.tag => cfg.tagWeight
  | MatchField.folder => cfg.folderWeight

/-- Modelled from the spec: per-field match evidence of the precise
strategy (§4.3) for one term — the term matches a field when it occurs
as a (case-preserved; terms are pre-lowercased by the Tokenizer) token
substring of the field's text. -/
def fieldMatchesFor (e : SearchableEntity) (t : String) : List FieldMatch :=
  (if containsStr e.title t then [⟨MatchField.title, t⟩] else [])
    ++ (if containsStr e.url t then [⟨MatchField.url, t⟩] else [])
    ++ (if e.tags.any (fun tg => containsStr tg t) then [⟨MatchField.tag, t⟩] else [])
    ++ (if e.folderPath.any (fun f => containsStr f t) then [⟨MatchField.folder, t⟩] else [])

/-- Modelled from the spec: all field matches of an entity for the
query's terms (§4.3). -/
def entityMatches (e : SearchableEntity) (terms : List String) : List FieldMatch :=
  terms.flatMap (fieldMatchesFor e)

/-- Modelled from the spec: how many of the query terms the entity
matches across any field (§4.3, precise strategy). -/
def matchedTermCount (e : SearchableEntity) (terms : List String) : Nat :=
  (terms.filter (fun t => !(fieldMatchesFor e t).isEmpty)).length

/-- Modelled from the spec: the precise strategy's candidate floor —
the fraction of query terms the entity matches must meet or exceed
`score.minSearchTermMatchRatio` (§4.3), stated multiplicatively:
`count / length ≥ ratio` exactly when `length * ratio ≤ count` for a
non-empty term list. -/
def preciseCandidate (cfg : ScoringConfig) (e : SearchableEntity) (terms : List String) : Bool :=
  decide ((terms.length : ℚ) * cfg.minSearchTermMatchRatio
    ≤ (matchedTermCount e terms : ℚ))

/-- Modelled from the spec: "ANY field contains the full raw query as a
substring" (§4.4). -/
def includesCond (q : QueryTerms) (e : SearchableEntity) : Bool :=
  containsStr e.title q.rawQuery
    || containsStr e.url q.rawQuery
    || e.tags.any (fun tg => containsStr tg q.rawQuery)
    || e.folderPath.any (fun f => containsStr f q.rawQuery)

/-- Modelled from the spec: "title OR url starts with the full raw
query" (§4.4). -/
def startsWithCond (q : QueryTerms) (e : SearchableEntity) : Bool :=
  startsWithStr e.title q.rawQuery || startsWithStr e.url q.rawQuery

/-- Modelled from the spec: "title equals the full raw query exactly"
(§4.4). -/
def equalsCond (q : QueryTerms) (e : SearchableEntity) : Bool :=
  e.title == q.rawQuery

/-- Modelled from the spec: the three stacking exact-match bonuses of
§4.4, each added at most once. -/
def exactBonus (cfg : ScoringConfig) (q : QueryTerms) (e : SearchableEntity) : ℚ :=
  (if includesCond q e then cfg.exactIncludesBonus else 0)
    + (if startsWithCond q e then cfg.exactStartsWithBonus else 0)
    + (if equalsCond q e then cfg.exactEqualsBonus else 0)

/-- Modelled from the spec: "once per tag term that exactly equals one
of the entity's tags" (§4.4); both sides are stored marker-stripped. -/
def tagBonus (cfg : ScoringConfig) (q : QueryTerms) (e : SearchableEntity) : ℚ :=
  cfg.exactTagMatchBonus * ((q.tagTerms.filter (fun t => e.tags.contains t)).length : ℚ)

/-- Modelled from the spec: "once per folder term that exactly equals a
folder-path segment" (§4.4). -/
def folderBonus (cfg : ScoringConfig) (q : QueryTerms) (e : SearchableEntity) : ℚ :=
  cfg.exactFolderMatchBonus
    * ((q.folderTerms.filter (fun t => e.folderPath.contains t)).length : ℚ)

/-- Modelled from the spec: which result types track visits — search
engine entries are synthetic and carry no visit data (§4.4). -/
def tracksVisits : ResultType → Bool
  | ResultType.searchEngine => false
  | _ => true

/-- Modelled from the spec: the visit-frequency bonus
`min(visitCount * visitedBonusScore, visitedBonusScoreMaximum)` for
types that track visits (§4.4); `visitCount` is the entity's total
history visit count. -/
def visitedBonus (cfg : ScoringConfig) (e : SearchableEntity) : ℚ :=
  if tracksVisits e.etype
  then min ((e.visitCount : ℚ) * cfg.visitedBonusScore) cfg.visitedBonusScoreMaximum
  else 0

/-- Modelled from the spec: the Scorer's score formula of §4.4 for a
candidate entity. -/
def computeScore (cfg : ScoringConfig) (q : QueryTerms) (e : SearchableEntity) : ℚ :=
  baseScore cfg e.etype
    + ((entityMatches e q.terms).map (fun m => fieldWeight cfg m.field)).sum
    + exactBonus cfg q e
    + tagBonus cfg q e
    + folderBonus cfg q e
    + visitedBonus cfg e

/-- Modelled from the spec: `ScoredResult` of §3. -/
structure ScoredResult where
  entity : SearchableEntity
  score : ℚ
  matchedFields : List FieldMatch
deriving DecidableEq, Repr

/-- Modelled from the spec: the Scorer applied to the candidate
entities — an entity is scored when the precise strategy admits it and
it has at least one `FieldMatch` (§4.3, §4.4). -/
def scoreCandidates (cfg : ScoringConfig) (q : QueryTerms)
    (ents : List SearchableEntity) : List ScoredResult :=
  (ents.filter (fun e =>
      preciseCandidate cfg e q.terms && !(entityMatches e q.terms).isEmpty)).map
    (fun e => ⟨e, computeScore cfg q e, entityMatches e q.terms⟩)

/-- Modelled from the spec: search-engine entries bypass field matching
and are appended with their configured base score unmodified (§4.4). -/
def engineResults (cfg : ScoringConfig) (engines : List SearchableEntity) : List ScoredResult :=
  engines.map (fun e => ⟨e, cfg.searchEngineBaseScore, []⟩)

/-- Modelled from the spec: the fixed tie-break priority of result
types — Bookmark > Tab > History > SearchEngine (§4.5). -/
def typePriority : ResultType → Nat
  | ResultType.bookmark => 3
  | ResultType.tab => 2
  | ResultType.history => 1
  | ResultType.searchEngine => 0

/-- Modelled from the spec: the sort order of §4.5 — descending by
score, ties broken by type priority. `resultLe a b` holds when `a` may
come before `b`. -/
def resultLe (a b : ScoredResult) : Bool :=
  decide (b.score < a.score
    ∨ (a.score = b.score ∧ typePriority b.entity.etype ≤ typePriority a.entity.etype))

/-- Insert into a sorted list (kept before the first element it may
precede), the step of the stable insertion sort used for §4.5. -/
def insertSorted (a : ScoredResult) : List ScoredResult → List ScoredResult
  | [] => [a]
  | b :: l => if resultLe a b then a :: b :: l else b :: insertSorted a l

/-- Modelled from the spec: the Aggregator's stable sort (§4.5). -/
def sortResults : List ScoredResult → List ScoredResult
  | [] => []
  | a :: l => insertSorted a (sortResults l)

/-- Modelled from the spec: the merged result sequence in discovery
order (§4.5) — the scored matched entities followed by the synthetic
search-engine entries, appended for any non-empty query (§4.4). -/
def mergedCandidates (cfg : ScoringConfig) (ents : List SearchableEntity)
    (q : QueryTerms) : List ScoredResult :=
  scoreCandidates cfg q (ents.filter (fun e => !(e.etype == ResultType.searchEngine)))
    ++ (if q.rawQuery.isEmpty
        then []
        else engineResults cfg (ents.filter (fun e => e.etype == ResultType.searchEngine)))

/-- Modelled from the spec: the merged candidates surviving the
post-score filter `score ≥ score.minScore` (§4.4), in discovery order. -/
def keptCandidates (cfg : ScoringConfig) (ents : List SearchableEntity)
    (q : QueryTerms) : List ScoredResult :=
  (mergedCandidates cfg ents q).filter (fun r => decide (cfg.minScore ≤ r.score))

/-- Modelled from the spec: the full pipeline of §4.4/§4.5 — score,
filter by minimum score, sort (descending score, type-priority
tie-break, stable), and cap at `search.maxResults`. -/
def searchPipeline (cfg : ScoringConfig) (ents : List SearchableEntity)
    (q : QueryTerms) : List ScoredResult :=
  (sortResults (keptCandidates cfg ents q)).take cfg.maxResults

/-- The score a result's own entity determines, independently of every
other entity: the constant search-engine base score for synthetic
search-engine entries, the Scorer's formula otherwise. -/
def entityScore (cfg : ScoringConfig) (q : QueryTerms) (e : SearchableEntity) : ℚ :=
  if e.etype = ResultType.searchEngine then cfg.searchEngineBaseScore
  else computeScore cfg q e

/-- A concrete bookmark entity used to exercise the pipeline. -/
def entityInbox : SearchableEntity :=
  { id := 1
  , etype := ResultType.bookmark
  , title := "inbox"
  , url := "https://mail.example.com/inbox"
  , folderPath := []
  , tags := []
  , visitCount := 3
  }

/-- The concrete one-term query "inbox". -/
def queryInbox : QueryTerms :=
  { rawQuery := "inbox", terms := ["inbox"], tagTerms := [], folderTerms := [] }

/-- The scored result the pipeline produces for `entityInbox` under the
default configuration and `queryInbox`. -/
def resultInbox : ScoredResult :=
  { entity := entityInbox
  , score := 663 / 5
  , matchedFields := [⟨MatchField.title, "inbox"⟩, ⟨MatchField.url, "inbox"⟩]
  }

/-- The default configuration with the precise strategy's term-match
ratio raised to 1 (all terms must match). -/
def allTermsConfig : ScoringConfig :=
  { defaultScoreConfig with minSearchTermMatchRatio := 1 }

/-- A concrete bookmark matching the term "alpha" but not "beta". -/
def entityAlpha : SearchableEntity :=
  { id := 2
  , etype := ResultType.bookmark
  , title := "alpha page"
  , url := "https://example.com/alpha"
  , folderPath := []
  , tags := []
  , visitCount := 0
  }

/-- The concrete two-term query "alpha beta". -/
def queryAlphaBeta : QueryTerms :=
  { rawQuery := "alpha beta", terms := ["alpha", "beta"], tagTerms := [], folderTerms := [] }

/-! ### Sorting lemmas: membership, order, stability -/

theorem mem_insertSorted {x a : ScoredResult} {l : List ScoredResult} :
    x ∈ insertSorted a l ↔ x = a ∨ x ∈ l := by
  induction l with
  | nil => simp [insertSorted]
  | cons b l ih =>
    by_cases h : resultLe a b
    · simp [insertSorted, h]
    · simp [insertSorted, h, ih]
      tauto

theorem mem_sortResults {x : ScoredResult} {l : List ScoredResult} :
    x ∈ sortResults l ↔ x ∈ l := by
  induction l with
  | nil => simp [sortResults]
  | cons a l ih => simp [sortResults, mem_insertSorted, ih]

theorem resultLe_total (a b : ScoredResult) :
    resultLe a b = true ∨ resultLe b a = true := by
  unfold resultLe
  simp only [decide_eq_true_eq]
  rcases lt_trichotomy a.score b.score with h | h | h
  · right
    exact Or.inl h
  · rcases Nat.le_total (typePriority b.entity.etype) (typePriority a.entity.etype) with hp | hp
    · exact Or.inl (Or.inr ⟨h, hp⟩)
    · exact Or.inr (Or.inr ⟨h.symm, hp⟩)
  · left
    exact Or.inl h

theorem resultLe_trans {a b c : ScoredResult}
    (hab : resultLe a b = true) (hbc : resultLe b c = true) : resultLe a c = true := by
  unfold resultLe at hab hbc ⊢
  simp only [decide_eq_true_eq] at hab hbc ⊢
  rcases hab with h1 | ⟨h1, p1⟩
  · rcases hbc with h2 | ⟨h2, p2⟩
    · exact Or.inl (h2.trans h1)
    · exact Or.inl (h2 ▸ h1)
  · rcases hbc with h2 | ⟨h2, p2⟩
    · exact Or.inl (h1 ▸ h2)
    · exact Or.inr ⟨h1.trans h2, p2.trans p1⟩

theorem pairwise_insertSorted {a : ScoredResult} {l : List ScoredResult}
    (hl : l.Pairwise (fun x y => resultLe x y = true)) :
    (insertSorted a l).Pairwise (fun x y => resultLe x y = true) := by
  induction l with
  | nil => simp [insertSorted]
  | cons b l ih =>
    rcases List.pairwise_cons.mp hl with ⟨hb, hl'⟩
    by_cases h : resultLe a b
    · rw [insertSorted, if_pos h]
      refine List.pairwise_cons.mpr ⟨?_, hl⟩
      intro x hx
      rcases List.mem_cons.mp hx with rfl | hx
      · exact h
      · exact resultLe_trans h (hb x hx)
    · rw [insertSorted, if_neg h]
      refine List.pairwise_cons.mpr ⟨?_, ih hl'⟩
      intro x hx
      rcases mem_insertSorted.mp hx with hxa | hx
      · rw [hxa]
        rcases resultLe_total a b with h' | h'
        · exact absurd h' h
        · exact h'
      · exact hb x hx

theorem pairwise_sortResults (l : List ScoredResult) :
    (sortResults l).Pairwise (fun x y => resultLe x y = true) := by
  induction l with
  | nil => simp [sortResults]
  | cons a l ih => exact pairwise_insertSorted ih

theorem filter_insertSorted_pos {p : ScoredResult → Bool}
    (hp : ∀ x y, p x = true → p y = true → resultLe x y = true)
    {a : ScoredResult} (ha : p a = true) (l : List ScoredResult) :
    (insertSorted a l).filter p = a :: l.filter p := by
  induction l with
  | nil => simp [insertSorted, ha]
  | cons b l ih =>
    by_cases h : resultLe a b
    · rw [insertSorted, if_pos h]
      simp [List.filter_cons, ha]
    · rw [insertSorted, if_neg h]
      have hb : p b = false := by
        rcases hpb : p b with _ | _
        · rfl
        · exact absurd (hp a b ha hpb) h
      rw [List.filter_cons, if_neg (by simp [hb]), List.filter_cons, if_neg (by simp [hb])]
      exact ih

theorem filter_insertSorted_neg {p : ScoredResult → Bool}
    {a : ScoredResult} (ha : p a = false) (l : List ScoredResult) :
    (insertSorted a l).filter p = l.filter p := by
  induction l with
  | nil => simp [insertSorted, ha]
  | cons b l ih =>
    by_cases h : resultLe a b
    · rw [insertSorted, if_pos h]
      simp [List.filter_cons, ha]
    · rw [insertSorted, if_neg h]
      rw [List.filter_cons, List.filter_cons]
      rw [ih]

theorem filter_sortResults {p : ScoredResult → Bool}
    (hp : ∀ x y, p x = true → p y = true → resultLe x y = true)
    (l : List ScoredResult) :
    (sortResults l).filter p = l.filter p := by
  induction l with
  | nil => simp [sortResults]
  | cons a l ih =>
    rcases hpa : p a with _ | _
    · rw [sortResults, filter_insertSorted_neg hpa, ih, List.filter_cons, if_neg (by simp [hpa])]
    · rw [sortResults, filter_insertSorted_pos hp hpa, List.filter_cons, if_pos (by simp [hpa]), ih]

/-! ### Pipeline membership and the scoring claims -/

theorem mem_keptCandidates_of_mem_searchPipeline
    {cfg : ScoringConfig} {ents : List SearchableEntity} {q : QueryTerms}
    {r : ScoredResult} (h : r ∈ searchPipeline cfg ents q) :
    r ∈ keptCandidates cfg ents q := by
  unfold searchPipeline at h
  exact mem_sortResults.mp (List.mem_of_mem_take h)

/-- C1: every result the pipeline returns survived the post-score
filter, so its score is at least the configured `score.minScore`; a
candidate scoring below the floor is discarded. -/
theorem returned_results_meet_minScore
    (cfg : ScoringConfig) (ents : List SearchableEntity) (q : QueryTerms)
    (r : ScoredResult) (h : r ∈ searchPipeline cfg ents q) :
    cfg.minScore ≤ r.score := by
  have hk := mem_keptCandidates_of_mem_searchPipeline h
  unfold keptCandidates at hk
  exact of_decide_eq_true (List.mem_filter.mp hk).2

/-- C6: the score attached to any returned result is a function of its
own entity, the query and the configuration alone — no cross-result
normalization, no hidden state. -/
theorem score_is_pure_function_of_own_entity
    (cfg : ScoringConfig) (ents : List SearchableEntity) (q : QueryTerms)
    (r : ScoredResult) (h : r ∈ searchPipeline cfg ents q) :
    r.score = entityScore cfg q r.entity := by
  have hk := mem_keptCandidates_of_mem_searchPipeline h
  unfold keptCandidates at hk
  have hm := (List.mem_filter.mp hk).1
  unfold mergedCandidates at hm
  rcases List.mem_append.mp hm with hm | hm
  · unfold scoreCandidates at hm
    rcases List.mem_map.mp hm with ⟨e, he, rfl⟩
    have hf := (List.mem_filter.mp (List.mem_filter.mp he).1).2
    have hne : ¬ (e.etype = ResultType.searchEngine) := by
      intro hcontra
      simp [hcontra] at hf
    simp [entityScore, hne]
  · split at hm
    · exact absurd hm (List.not_mem_nil r)
    · unfold engineResults at hm
      rcases List.mem_map.mp hm with ⟨e, he, rfl⟩
      have hf := (List.mem_filter.mp he).2
      have heq : e.etype = ResultType.searchEngine := by
        simpa using hf
      simp [entityScore, heq]

theorem resultLe_iff {a b : ScoredResult} :
    resultLe a b = true
      ↔ (b.score < a.score
          ∨ (a.score = b.score ∧ typePriority b.entity.etype ≤ typePriority a.entity.etype)) := by
  unfold resultLe
  exact decide_eq_true_iff

/-- C2: the pipeline's output is sorted descending by score with ties
broken by the fixed type priority Bookmark > Tab > History >
SearchEngine, and results of equal score and type keep their original
discovery order (the sort is stable: filtering the output to one
score/type class yields a prefix of the same class of the pre-sort
sequence). -/
theorem merged_sequence_sorted_and_stable
    (cfg : ScoringConfig) (ents : List SearchableEntity) (q : QueryTerms)
    (s : ℚ) (t : ResultType) :
    (searchPipeline cfg ents q).Pairwise
      (fun a b => b.score < a.score
        ∨ (a.score = b.score ∧ typePriority b.entity.etype ≤ typePriority a.entity.etype))
    ∧ (searchPipeline cfg ents q).filter
        (fun r => decide (r.score = s) && decide (r.entity.etype = t))
      <+: (keptCandidates cfg ents q).filter
        (fun r => decide (r.score = s) && decide (r.entity.etype = t)) := by
  constructor
  · have hpw := pairwise_sortResults (keptCandidates cfg ents q)
    have hsub := List.take_sublist cfg.maxResults (sortResults (keptCandidates cfg ents q))
    have := (hpw.sublist hsub).imp (fun h => resultLe_iff.mp h)
    exact this
  · have hp : ∀ x y : ScoredResult,
        (decide (x.score = s) && decide (x.entity.etype = t)) = true →
        (decide (y.score = s) && decide (y.entity.etype = t)) = true →
        resultLe x y = true := by
      intro x y hx hy
      rcases (Bool.and_eq_true _ _).mp hx with ⟨hx1, hx2⟩
      rcases (Bool.and_eq_true _ _).mp hy with ⟨hy1, hy2⟩
      have hx1 := of_decide_eq_true hx1
      have hx2 := of_decide_eq_true hx2
      have hy1 := of_decide_eq_true hy1
      have hy2 := of_decide_eq_true hy2
      apply resultLe_iff.mpr
      exact Or.inr ⟨hx1.trans hy1.symm, by rw [hx2, hy2]⟩
    have hstab := filter_sortResults hp (keptCandidates cfg ents q)
    have htp := List.take_prefix cfg.maxResults (sortResults (keptCandidates cfg ents q))
    have hpre := List.IsPrefix.filter
      (fun r => decide (r.score = s) && decide (r.entity.etype = t)) htp
    unfold searchPipeline
    rw [hstab] at hpre
    exact hpre

/-- C5: under the precise strategy an entity is a candidate exactly when
the fraction of query terms it matches reaches
`score.minSearchTermMatchRatio`; with ratio 1 and a two-term query, an
entity matching only one term never appears in the pipeline's output,
regardless of its would-be score. -/
theorem precise_ratio_candidate_floor
    (cfg : ScoringConfig) (e : SearchableEntity) (q : QueryTerms) :
    (q.terms ≠ [] →
      (preciseCandidate cfg e q.terms = true
        ↔ cfg.minSearchTermMatchRatio
            ≤ (matchedTermCount e q.terms : ℚ) / (q.terms.length : ℚ)))
    ∧ (cfg.minSearchTermMatchRatio = 1 → q.terms.length = 2 →
        matchedTermCount e q.terms = 1 → e.etype ≠ ResultType.searchEngine →
        ∀ ents : List SearchableEntity,
          e ∉ (searchPipeline cfg ents q).map ScoredResult.entity) := by
  constructor
  · intro hne
    unfold preciseCandidate
    rw [decide_eq_true_iff]
    have hpos : (0 : ℚ) < (q.terms.length : ℚ) := by
      exact_mod_cast List.length_pos.mpr hne
    rw [le_div_iff₀ hpos, mul_comm]
  · intro h1 h2 h3 h4 ents hmem
    rcases List.mem_map.mp hmem with ⟨r, hr, hre⟩
    have hk := mem_keptCandidates_of_mem_searchPipeline hr
    unfold keptCandidates at hk
    have hm := (List.mem_filter.mp hk).1
    unfold mergedCandidates at hm
    rcases List.mem_append.mp hm with hm | hm
    · unfold scoreCandidates at hm
      rcases List.mem_map.mp hm with ⟨e', he', hr'⟩
      have hcand := (List.mem_filter.mp he').2
      have hee : e' = e := by
        rw [← hre, ← hr']
      rw [hee] at hcand
      have hc := ((Bool.and_eq_true _ _).mp hcand).1
      unfold preciseCandidate at hc
      have hc := of_decide_eq_true hc
      rw [h1, h2, h3] at hc
      norm_num at hc
    · split at hm
      · exact absurd hm (List.not_mem_nil r)
      · unfold engineResults at hm
        rcases List.mem_map.mp hm with ⟨e', he', hr'⟩
        have hf := (List.mem_filter.mp he').2
        have heq : e'.etype = ResultType.searchEngine := by simpa using hf
        apply h4
        rw [← hre, ← hr']
        exact heq

theorem tails_any_self {α : Type} (p : List α → Bool) (l : List α) (h : p l = true) :
    l.tails.any p = true := by
  cases l with
  | nil => simpa using h
  | cons a as =>
    rw [List.tails_cons]
    simp [h]

theorem containsStr_of_startsWithStr {hay needle : String}
    (h : startsWithStr hay needle = true) : containsStr hay needle = true := by
  unfold containsStr
  unfold startsWithStr at h
  exact tails_any_self _ _ h

theorem startsWithStr_self (s : String) : startsWithStr s s = true := by
  unfold startsWithStr
  exact List.isPrefixOf_iff_prefix.mpr (List.prefix_refl _)

/-- C3: the three exact-match bonuses are each added at most once and
stack — a startsWith match implies an includes match, an exact title
equality implies both, and in that case all three bonuses are added. -/
theorem exact_match_bonuses_stack
    (cfg : ScoringConfig) (q : QueryTerms) (e : SearchableEntity) :
    (0 ≤ cfg.exactIncludesBonus → 0 ≤ cfg.exactStartsWithBonus → 0 ≤ cfg.exactEqualsBonus →
      exactBonus cfg q e
        ≤ cfg.exactIncludesBonus + cfg.exactStartsWithBonus + cfg.exactEqualsBonus)
    ∧ (startsWithCond q e = true → includesCond q e = true)
    ∧ (equalsCond q e = true → startsWithCond q e = true)
    ∧ (equalsCond q e = true →
        exactBonus cfg q e
          = cfg.exactIncludesBonus + cfg.exactStartsWithBonus + cfg.exactEqualsBonus) := by
  have hsw_inc : startsWithCond q e = true → includesCond q e = true := by
    intro h
    unfold startsWithCond at h
    rcases Bool.or_eq_true_iff.mp h with h | h
    · unfold includesCond
      rw [containsStr_of_startsWithStr h]
      simp
    · unfold includesCond
      rw [containsStr_of_startsWithStr h]
      simp
  have heq_sw : equalsCond q e = true → startsWithCond q e = true := by
    intro h
    unfold equalsCond at h
    have ht : e.title = q.rawQuery := by simpa using h
    unfold startsWithCond
    rw [ht, startsWithStr_self]
    simp
  refine ⟨?_, hsw_inc, heq_sw, ?_⟩
  · intro h1 h2 h3
    unfold exactBonus
    split_ifs <;> linarith
  · intro h
    unfold exactBonus
    rw [h, heq_sw h, hsw_inc (heq_sw h)]
    simp

/-- C4: for a visit-tracking result type the visited bonus equals
`min(visitCount * visitedBonusScore, visitedBonusScoreMaximum)` — with
the default configuration `min(visitCount * 2, 30)` — computed from the
entity's total history visit count, and it enters the score additively. -/
theorem visited_bonus_formula
    (cfg : ScoringConfig) (q : QueryTerms) (e : SearchableEntity)
    (h : tracksVisits e.etype = true) (hm : 0 ≤ cfg.visitedBonusScoreMaximum) :
    visitedBonus cfg e
        = min ((e.visitCount : ℚ) * cfg.visitedBonusScore) cfg.visitedBonusScoreMaximum
    ∧ computeScore cfg q e
        = computeScore cfg q { e with visitCount := 0 } + visitedBonus cfg e
    ∧ visitedBonus defaultScoreConfig e = min ((e.visitCount : ℚ) * 2) 30 := by
  refine ⟨?_, ?_, ?_⟩
  · unfold visitedBonus
    rw [h]
    simp
  · have hb : baseScore cfg ({ e with visitCount := 0 } : SearchableEntity).etype
        = baseScore cfg e.etype := rfl
    have hm1 : entityMatches { e with visitCount := 0 } q.terms
        = entityMatches e q.terms := rfl
    have he1 : exactBonus cfg q { e with visitCount := 0 } = exactBonus cfg q e := rfl
    have ht1 : tagBonus cfg q { e with visitCount := 0 } = tagBonus cfg q e := rfl
    have hf1 : folderBonus cfg q { e with visitCount := 0 } = folderBonus cfg q e := rfl
    have hv0 : visitedBonus cfg { e with visitCount := 0 } = 0 := by
      unfold visitedBonus
      have he : ({ e with visitCount := 0 } : SearchableEntity).etype = e.etype := rfl
      rw [he, h]
      simp [min_eq_left hm]
    unfold computeScore
    rw [hb, hm1, he1, ht1, hf1, hv0]
    ring
  · unfold visitedBonus
    rw [h]
    simp [defaultScoreConfig]

/-! ### Deep-merge lemmas and the options claims -/

theorem find?_mergeLeft (d o : List (String × JValue)) (k : String) :
    (mergeLeft d o).find? (fun kv => kv.1 == k)
      = (d.find? (fun kv => kv.1 == k)).map
          (fun kv => (kv.1, match o.find? (fun kv2 => kv2.1 == kv.1) with
                            | some kw => mergeDeep kv.2 kw.2
                            | none => kv.2)) := by
  induction d with
  | nil => simp [mergeLeft]
  | cons hd tl ih =>
    obtain ⟨k', v'⟩ := hd
    by_cases h : k' = k
    · subst h
      simp [mergeLeft, List.find?]
    · rw [mergeLeft]
      rw [List.find?]
      simp only [List.find?]
      have hbeq : (k' == k) = false := beq_eq_false_iff_ne.mpr h
      simp [hbeq, ih]

theorem find?_filter_of_none (o d : List (String × JValue)) (k : String)
    (h : d.find? (fun kv => kv.1 == k) = none) :
    (o.filter (fun kv => (d.find? (fun kv2 => kv2.1 == kv.1)).isNone)).find?
        (fun kv => kv.1 == k)
      = o.find? (fun kv => kv.1 == k) := by
  induction o with
  | nil => simp
  | cons hd tl ih =>
    obtain ⟨k', v'⟩ := hd
    by_cases hk : k' = k
    · subst hk
      simp [List.filter, List.find?, h, ih]
    · have hbeq : (k' == k) = false := beq_eq_false_iff_ne.mpr hk
      by_cases hq : (d.find? (fun kv2 => kv2.1 == k')).isNone
      · simp [List.filter, hq, List.find?, hbeq, ih]
      · simp [List.filter, hq, List.find?, hbeq, ih]

theorem find?_filter_of_some (o d : List (String × JValue)) (k : String)
    (h : (d.find? (fun kv => kv.1 == k)).isSome) :
    (o.filter (fun kv => (d.find? (fun kv2 => kv2.1 == kv.1)).isNone)).find?
        (fun kv => kv.1 == k)
      = none := by
  induction o with
  | nil => simp
  | cons hd tl ih =>
    obtain ⟨k', v'⟩ := hd
    by_cases hk : k' = k
    · subst hk
      have hno : (d.find? (fun kv2 => kv2.1 == k')).isNone = false := by
        rcases hx : d.find? (fun kv2 => kv2.1 == k') with _ | y
        · rw [hx] at h
          exact absurd h (by simp)
        · rw [hx]
          rfl
      simp only [List.filter, hno]
      exact ih
    · have hbeq : (k' == k) = false := beq_eq_false_iff_ne.mpr hk
      by_cases hq : (d.find? (fun kv2 => kv2.1 == k')).isNone
      · simp [List.filter, hq, List.find?, hbeq, ih]
      · simp [List.filter, hq, List.find?, hbeq, ih]

/-- The lookup semantics of the deep merge of two objects: missing
override keys fall back to the default member, present keys merge
member-wise, override-only keys are taken from the override. -/
theorem lookup_mergeDeep_obj (d o : List (String × JValue)) (k : String) :
    lookup (mergeDeep (JValue.obj d) (JValue.obj o)) k
      = match lookupObj d k with
        | some v => some (match lookupObj o k with
                          | some w => mergeDeep v w
                          | none => v)
        | none => lookupObj o k := by
  have hstep : mergeDeep (JValue.obj d) (JValue.obj o)
      = JValue.obj
          (mergeLeft d o
            ++ o.filter (fun kv => (d.find? (fun kv2 => kv2.1 == kv.1)).isNone)) := by
    simp [mergeDeep]
  rw [hstep]
  show lookupObj _ k = _
  unfold lookupObj
  rw [List.find?_append, find?_mergeLeft]
  rcases hd : d.find? (fun kv => kv.1 == k) with _ | ⟨k', v'⟩
  · rw [find?_filter_of_none o d k hd, hd]
    simp
  · have hk : k' = k := by
      have := List.find?_some hd
      simpa [beq_iff_eq] using this
    subst hk
    have hs : (d.find? (fun kv => kv.1 == k')).isSome := by simp [hd]
    rw [find?_filter_of_some o d k' hs]
    rcases ho : o.find? (fun kv => kv.1 == k') with _ | ⟨k2, w⟩
    · simp [hd, ho]
    · have hk2 : k2 = k' := by
        have := List.find?_some ho
        simpa [beq_iff_eq] using this
      subst hk2
      simp [hd, ho]

theorem mergeDeep_not_obj (v w : JValue) (hw : isObj w = false) :
    mergeDeep v w = w := by
  cases w <;> simp [isObj] at hw ⊢ <;> cases v <;> simp [mergeDeep]

/-- C7: `getEffectiveOptions` deep-merges the user override over the
defaults field-by-field — keys missing from the override fall back to
the default, keys present in both merge recursively (and a non-object
override value replaces the default), and for the concrete override
`\x7bscore:\x7bminScore:10\x7d\x7d` the effective options carry
`score.minScore = 10` while every other two-level path keeps its
default value. -/
theorem effective_options_deep_merge (d o : List (String × JValue)) (k : String) :
    (lookupObj o k = none →
      lookup (mergeDeep (JValue.obj d) (JValue.obj o)) k = lookupObj d k)
    ∧ (∀ v w, lookupObj d k = some v → lookupObj o k = some w →
        lookup (mergeDeep (JValue.obj d) (JValue.obj o)) k = some (mergeDeep v w))
    ∧ (∀ w, lookupObj d k = none → lookupObj o k = some w →
        lookup (mergeDeep (JValue.obj d) (JValue.obj o)) k = some w)
    ∧ (∀ v w, isObj w = false → mergeDeep v w = w)
    ∧ lookup2 (getEffectiveOptions (some userOverrideMinScore10)) "score" "minScore"
        = some (JValue.num 10)
    ∧ (∀ k1 k2, ¬(k1 = "score" ∧ k2 = "minScore") →
        lookup2 (getEffectiveOptions (some userOverrideMinScore10)) k1 k2
          = lookup2 defaultOptions k1 k2) := by
  have hget : getEffectiveOptions (some userOverrideMinScore10)
      = mergeDeep (JValue.obj defaultOptionsKvs)
          (JValue.obj [("score", JValue.obj [("minScore", JValue.num 10)])]) := rfl
  have hdLook : lookupObj defaultOptionsKvs "score"
      = some (JValue.obj defaultOptionsScoreKvs) := rfl
  have hoLook : lookupObj [("score", JValue.obj [("minScore", JValue.num 10)])] "score"
      = some (JValue.obj [("minScore", JValue.num 10)]) := rfl
  refine ⟨?_, ?_, ?_, mergeDeep_not_obj, ?_, ?_⟩
  · intro h
    rw [lookup_mergeDeep_obj, h]
    cases hd : lookupObj d k <;> simp [hd]
  · intro v w hd ho
    rw [lookup_mergeDeep_obj, hd, ho]
  · intro w hd ho
    rw [lookup_mergeDeep_obj, hd, ho]
  · unfold lookup2
    rw [hget, lookup_mergeDeep_obj, hdLook, hoLook]
    simp only [Option.some_bind]
    rw [lookup_mergeDeep_obj]
    have h3 : lookupObj defaultOptionsScoreKvs "minScore" = some (JValue.num 30) := rfl
    have h4 : lookupObj [("minScore", JValue.num 10)] "minScore"
        = some (JValue.num 10) := rfl
    rw [h3, h4]
    rfl
  · intro k1 k2 hne
    unfold lookup2
    rw [hget, lookup_mergeDeep_obj]
    by_cases h1 : k1 = "score"
    · subst h1
      have hk2 : k2 ≠ "minScore" := fun hk => hne ⟨rfl, hk⟩
      rw [hdLook, hoLook]
      have hD : lookup defaultOptions "score" = some (JValue.obj defaultOptionsScoreKvs) := rfl
      rw [hD]
      simp only [Option.some_bind]
      rw [lookup_mergeDeep_obj]
      have h4 : lookupObj [("minScore", JValue.num 10)] k2 = none := by
        unfold lookupObj
        simp [List.find?, beq_eq_false_iff_ne.mpr (Ne.symm hk2)]
      rw [h4]
      cases h5 : lookupObj defaultOptionsScoreKvs k2 <;> simp [lookup, h5]
    · have h2 : lookupObj [("score", JValue.obj [("minScore", JValue.num 10)])] k1
          = none := by
        unfold lookupObj
        simp [List.find?, beq_eq_false_iff_ne.mpr (fun hk : "score" = k1 => h1 hk.symm)]
      rw [h2]
      have hD : lookup defaultOptions k1 = lookupObj defaultOptionsKvs k1 := rfl
      rw [hD]
      cases h5 : lookupObj defaultOptionsKvs k1 <;> simp [h5]

theorem mergeDeep_of_not_obj_left (v w : JValue) (hv : isObj v = false) :
    mergeDeep v w = w := by
  cases v <;> simp [isObj] at hv ⊢ <;> cases w <;> simp [mergeDeep]

/-- C8 counterexample: a syntactically valid override holding a string
where a number is expected is not rejected — `getEffectiveOptions`
carries it into the effective configuration, so loading does not fail
fast on a wrong-typed numeric weight. -/
theorem invalid_override_reaches_effective_config :
    lookup2 (getEffectiveOptions (some (JValue.obj
        [("score", JValue.obj [("minScore", JValue.str "thirty")])])))
      "score" "minScore" = some (JValue.str "thirty") := by
  have hget : getEffectiveOptions (some (JValue.obj
        [("score", JValue.obj [("minScore", JValue.str "thirty")])]))
      = mergeDeep (JValue.obj defaultOptionsKvs)
          (JValue.obj [("score", JValue.obj [("minScore", JValue.str "thirty")])]) := rfl
  unfold lookup2
  rw [hget, lookup_mergeDeep_obj]
  have h1 : lookupObj defaultOptionsKvs "score"
      = some (JValue.obj defaultOptionsScoreKvs) := rfl
  have h2 : lookupObj [("score", JValue.obj [("minScore", JValue.str "thirty")])] "score"
      = some (JValue.obj [("minScore", JValue.str "thirty")]) := rfl
  rw [h1, h2]
  simp only [Option.some_bind]
  rw [lookup_mergeDeep_obj]
  have h3 : lookupObj defaultOptionsScoreKvs "minScore" = some (JValue.num 30) := rfl
  have h4 : lookupObj [("minScore", JValue.str "thirty")] "minScore"
      = some (JValue.str "thirty") := rfl
  rw [h3, h4]
  show some (mergeDeep (JValue.num 30) (JValue.str "thirty")) = _
  rw [mergeDeep_of_not_obj_left (JValue.num 30) (JValue.str "thirty") rfl]

/-- C8 amended: loading the effective options never fails and performs
no type validation — whatever value the override supplies for the
numeric key `score.minScore` is deep-merged verbatim into the effective
configuration. -/
theorem invalid_override_merged_verbatim (v : JValue) :
    lookup2 (getEffectiveOptions (some (JValue.obj
        [("score", JValue.obj [("minScore", v)])])))
      "score" "minScore" = some v := by
  have hget : getEffectiveOptions (some (JValue.obj
        [("score", JValue.obj [("minScore", v)])]))
      = mergeDeep (JValue.obj defaultOptionsKvs)
          (JValue.obj [("score", JValue.obj [("minScore", v)])]) := rfl
  unfold lookup2
  rw [hget, lookup_mergeDeep_obj]
  have h1 : lookupObj defaultOptionsKvs "score"
      = some (JValue.obj defaultOptionsScoreKvs) := rfl
  have h2 : lookupObj [("score", JValue.obj [("minScore", v)])] "score"
      = some (JValue.obj [("minScore", v)]) := rfl
  rw [h1, h2]
  simp only [Option.some_bind]
  rw [lookup_mergeDeep_obj]
  have h3 : lookupObj defaultOptionsScoreKvs "minScore" = some (JValue.num 30) := rfl
  have h4 : lookupObj [("minScore", v)] "minScore" = some v := rfl
  rw [h3, h4]
  show some (mergeDeep (JValue.num 30) v) = some v
  rw [mergeDeep_of_not_obj_left (JValue.num 30) v rfl]

/-- C9: the hardcoded defaults carry the spec's stated values —
bookmark/tab/history/search-engine base scores 100/90/50/30, minimum
score 30, minimum match character length 2. -/
theorem default_config_matches_spec :
    lookup2 defaultOptions "score" "bookmarkBaseScore" = some (JValue.num 100)
    ∧ lookup2 defaultOptions "score" "tabBaseScore" = some (JValue.num 90)
    ∧ lookup2 defaultOptions "score" "historyBaseScore" = some (JValue.num 50)
    ∧ lookup2 defaultOptions "score" "searchEngineBaseScore" = some (JValue.num 30)
    ∧ lookup2 defaultOptions "score" "minScore" = some (JValue.num 30)
    ∧ lookup2 defaultOptions "search" "minMatchCharLength" = some (JValue.num 2) :=
  ⟨rfl, rfl, rfl, rfl, rfl, rfl⟩

/-- C10: storing a user-options object and reading it back yields the
same object, and reading an empty store yields the empty object. -/
theorem user_options_roundtrip (u : JValue) (store : Option JValue) (h : isObj u = true) :
    getUserOptions (setUserOptions u store) = u
    ∧ getUserOptions none = JValue.obj [] := by
  refine ⟨?_, rfl⟩
  cases u with
  | obj kvs => rfl
  | null => simp [isObj] at h
  | bool b => simp [isObj] at h
  | num q => simp [isObj] at h
  | str s => simp [isObj] at h
  | arr xs => simp [isObj] at h

/-! ### Concrete evaluations and witnesses -/

theorem entityMatches_inbox :
    entityMatches entityInbox ["inbox"]
      = [⟨MatchField.title, "inbox"⟩, ⟨MatchField.url, "inbox"⟩] := by
  decide

theorem matchedTermCount_inbox : matchedTermCount entityInbox ["inbox"] = 1 := by
  decide

theorem preciseCandidate_inbox :
    preciseCandidate defaultScoreConfig entityInbox ["inbox"] = true := by
  unfold preciseCandidate
  rw [matchedTermCount_inbox]
  norm_num [defaultScoreConfig]

theorem computeScore_inbox :
    computeScore defaultScoreConfig queryInbox entityInbox = 663 / 5 := by
  unfold computeScore
  rw [show queryInbox.terms = ["inbox"] from rfl, entityMatches_inbox]
  norm_num [baseScore, fieldWeight, exactBonus, tagBonus, folderBonus, visitedBonus,
    defaultScoreConfig, includesCond, startsWithCond, equalsCond, tracksVisits,
    entityInbox, queryInbox, containsStr, startsWithStr]

theorem scoreCandidates_inbox :
    scoreCandidates defaultScoreConfig queryInbox [entityInbox] = [resultInbox] := by
  unfold scoreCandidates
  rw [show queryInbox.terms = ["inbox"] from rfl]
  rw [List.filter_cons]
  simp only [preciseCandidate_inbox, entityMatches_inbox, List.isEmpty_cons, Bool.not_false,
    Bool.and_self, if_true, List.filter_nil, List.map_cons, List.map_nil, computeScore_inbox]
  rw [resultInbox]

theorem keptCandidates_inbox :
    keptCandidates defaultScoreConfig [entityInbox] queryInbox = [resultInbox] := by
  unfold keptCandidates mergedCandidates
  have h1 : List.filter (fun e => !(e.etype == ResultType.searchEngine)) [entityInbox]
      = [entityInbox] := by decide
  have h2 : List.filter (fun e => e.etype == ResultType.searchEngine) [entityInbox]
      = ([] : List SearchableEntity) := by decide
  rw [h1, h2, scoreCandidates_inbox]
  have h3 : queryInbox.rawQuery.isEmpty = false := by decide
  rw [h3]
  simp only [Bool.false_eq_true, if_false, engineResults, List.map_nil, List.append_nil]
  rw [List.filter_cons]
  have h4 : decide (defaultScoreConfig.minScore ≤ resultInbox.score) = true := by
    norm_num [defaultScoreConfig, resultInbox]
  rw [h4]
  simp

theorem searchPipeline_inbox :
    searchPipeline defaultScoreConfig [entityInbox] queryInbox = [resultInbox] := by
  unfold searchPipeline
  rw [keptCandidates_inbox]
  simp [sortResults, insertSorted, defaultScoreConfig]

theorem resultInbox_mem :
    resultInbox ∈ searchPipeline defaultScoreConfig [entityInbox] queryInbox := by
  rw [searchPipeline_inbox]
  exact List.mem_singleton.mpr rfl

theorem zero_le_includesBonus : (0 : ℚ) ≤ defaultScoreConfig.exactIncludesBonus := by
  norm_num [defaultScoreConfig]

theorem zero_le_startsWithBonus : (0 : ℚ) ≤ defaultScoreConfig.exactStartsWithBonus := by
  norm_num [defaultScoreConfig]

theorem zero_le_equalsBonus : (0 : ℚ) ≤ defaultScoreConfig.exactEqualsBonus := by
  norm_num [defaultScoreConfig]

theorem zero_le_visitedMax : (0 : ℚ) ≤ defaultScoreConfig.visitedBonusScoreMaximum := by
  norm_num [defaultScoreConfig]

/-- Witness for C1 at a concrete pipeline run. -/
theorem returned_results_meet_minScore_witness :
    resultInbox ∈ searchPipeline defaultScoreConfig [entityInbox] queryInbox
    ∧ defaultScoreConfig.minScore ≤ resultInbox.score :=
  ⟨resultInbox_mem,
   returned_results_meet_minScore defaultScoreConfig [entityInbox] queryInbox
     resultInbox resultInbox_mem⟩

/-- Witness for C6 at a concrete pipeline run. -/
theorem score_is_pure_function_of_own_entity_witness :
    resultInbox ∈ searchPipeline defaultScoreConfig [entityInbox] queryInbox
    ∧ resultInbox.score = entityScore defaultScoreConfig queryInbox resultInbox.entity :=
  ⟨resultInbox_mem,
   score_is_pure_function_of_own_entity defaultScoreConfig [entityInbox] queryInbox
     resultInbox resultInbox_mem⟩

/-- Witness for C3 at the default configuration and an exact title
match. -/
theorem exact_match_bonuses_stack_witness :
    (0 : ℚ) ≤ defaultScoreConfig.exactIncludesBonus
    ∧ (0 : ℚ) ≤ defaultScoreConfig.exactStartsWithBonus
    ∧ (0 : ℚ) ≤ defaultScoreConfig.exactEqualsBonus
    ∧ equalsCond queryInbox entityInbox = true
    ∧ exactBonus defaultScoreConfig queryInbox entityInbox
        ≤ defaultScoreConfig.exactIncludesBonus + defaultScoreConfig.exactStartsWithBonus
            + defaultScoreConfig.exactEqualsBonus
    ∧ exactBonus defaultScoreConfig queryInbox entityInbox
        = defaultScoreConfig.exactIncludesBonus + defaultScoreConfig.exactStartsWithBonus
            + defaultScoreConfig.exactEqualsBonus :=
  ⟨zero_le_includesBonus, zero_le_startsWithBonus, zero_le_equalsBonus, by decide,
   (exact_match_bonuses_stack defaultScoreConfig queryInbox entityInbox).1
     zero_le_includesBonus zero_le_startsWithBonus zero_le_equalsBonus,
   (exact_match_bonuses_stack defaultScoreConfig queryInbox entityInbox).2.2.2 (by decide)⟩

/-- Witness for C4 at the default configuration and a visited bookmark. -/
theorem visited_bonus_formula_witness :
    tracksVisits entityInbox.etype = true
    ∧ (0 : ℚ) ≤ defaultScoreConfig.visitedBonusScoreMaximum
    ∧ (visitedBonus defaultScoreConfig entityInbox
          = min ((entityInbox.visitCount : ℚ) * defaultScoreConfig.visitedBonusScore)
              defaultScoreConfig.visitedBonusScoreMaximum
        ∧ computeScore defaultScoreConfig queryInbox entityInbox
          = computeScore defaultScoreConfig queryInbox { entityInbox with visitCount := 0 }
              + visitedBonus defaultScoreConfig entityInbox
        ∧ visitedBonus defaultScoreConfig entityInbox
          = min ((entityInbox.visitCount : ℚ) * 2) 30) :=
  ⟨by decide, zero_le_visitedMax,
   visited_bonus_formula defaultScoreConfig queryInbox entityInbox (by decide) zero_le_visitedMax⟩

/-- Witness for C5: ratio 1, two-term query, an entity matching only
one term is excluded. -/
theorem precise_ratio_candidate_floor_witness :
    queryAlphaBeta.terms ≠ []
    ∧ allTermsConfig.minSearchTermMatchRatio = 1
    ∧ queryAlphaBeta.terms.length = 2
    ∧ matchedTermCount entityAlpha queryAlphaBeta.terms = 1
    ∧ entityAlpha.etype ≠ ResultType.searchEngine
    ∧ (preciseCandidate allTermsConfig entityAlpha queryAlphaBeta.terms = true
        ↔ allTermsConfig.minSearchTermMatchRatio
            ≤ (matchedTermCount entityAlpha queryAlphaBeta.terms : ℚ)
                / (queryAlphaBeta.terms.length : ℚ))
    ∧ entityAlpha
        ∉ (searchPipeline allTermsConfig [entityAlpha] queryAlphaBeta).map ScoredResult.entity :=
  ⟨by decide, rfl, rfl, by decide, by decide,
   (precise_ratio_candidate_floor allTermsConfig entityAlpha queryAlphaBeta).1 (by decide),
   (precise_ratio_candidate_floor allTermsConfig entityAlpha queryAlphaBeta).2
     rfl rfl (by decide) (by decide) [entityAlpha]⟩

/-- Witness for C7 at small concrete objects exercising each merge
case. -/
theorem effective_options_deep_merge_witness :
    lookupObj [("s", JValue.obj [("a", JValue.num 3)]), ("y", JValue.num 4)] "x" = none
    ∧ lookup
        (mergeDeep (JValue.obj [("x", JValue.num 1), ("s", JValue.obj [("a", JValue.num 2)])])
          (JValue.obj [("s", JValue.obj [("a", JValue.num 3)]), ("y", JValue.num 4)])) "x"
        = lookupObj [("x", JValue.num 1), ("s", JValue.obj [("a", JValue.num 2)])] "x"
    ∧ lookup
        (mergeDeep (JValue.obj [("x", JValue.num 1), ("s", JValue.obj [("a", JValue.num 2)])])
          (JValue.obj [("s", JValue.obj [("a", JValue.num 3)]), ("y", JValue.num 4)])) "s"
        = some (mergeDeep (JValue.obj [("a", JValue.num 2)]) (JValue.obj [("a", JValue.num 3)]))
    ∧ lookup
        (mergeDeep (JValue.obj [("x", JValue.num 1), ("s", JValue.obj [("a", JValue.num 2)])])
          (JValue.obj [("s", JValue.obj [("a", JValue.num 3)]), ("y", JValue.num 4)])) "y"
        = some (JValue.num 4)
    ∧ mergeDeep (JValue.num 1) (JValue.num 2) = JValue.num 2 :=
  ⟨rfl,
   (effective_options_deep_merge
      [("x", JValue.num 1), ("s", JValue.obj [("a", JValue.num 2)])]
      [("s", JValue.obj [("a", JValue.num 3)]), ("y", JValue.num 4)] "x").1 rfl,
   (effective_options_deep_merge
      [("x", JValue.num 1), ("s", JValue.obj [("a", JValue.num 2)])]
      [("s", JValue.obj [("a", JValue.num 3)]), ("y", JValue.num 4)] "s").2.1
     (JValue.obj [("a", JValue.num 2)]) (JValue.obj [("a", JValue.num 3)]) rfl rfl,
   (effective_options_deep_merge
      [("x", JValue.num 1), ("s", JValue.obj [("a", JValue.num 2)])]
      [("s", JValue.obj [("a", JValue.num 3)]), ("y", JValue.num 4)] "y").2.2.1
     (JValue.num 4) rfl rfl,
   (effective_options_deep_merge
      [("x", JValue.num 1), ("s", JValue.obj [("a", JValue.num 2)])]
      [("s", JValue.obj [("a", JValue.num 3)]), ("y", JValue.num 4)] "y").2.2.2.1
     (JValue.num 1) (JValue.num 2) rfl⟩

/-- Witness for C10 at a concrete stored object. -/
theorem user_options_roundtrip_witness :
    isObj (JValue.obj [("a", JValue.num 1)]) = true
    ∧ (getUserOptions (setUserOptions (JValue.obj [("a", JValue.num 1)]) none)
          = JValue.obj [("a", JValue.num 1)]
        ∧ getUserOptions none = JValue.obj []) :=
  ⟨rfl, user_options_roundtrip (JValue.obj [("a", JValue.num 1)]) none rfl⟩
